import Mathlib

/-!
Verification of the maintenance-mode decision core (validator, decision
engine, countdown calculator) of the nextjs-maintenance-mode repository.

The JavaScript sources are embedded shallowly:
* `new Date(s)` parsing is abstracted as a function `parse : String → Option Int`
  returning the epoch-millisecond value, `none` when the string is an invalid
  date (`isNaN(d.getTime())`); the current time is an explicit `now : Int` in
  epoch milliseconds.
* JS truthiness of an optional string field (`if (config.startTime)`) is:
  `undefined` (here `none`) and the empty string are falsy.
* `console.warn` side effects are made explicit: the `...W` variants return the
  list of warning messages emitted alongside the result.
* Comparing an invalid `Date` with `<`/`>` is always false in JS (NaN
  comparisons), which the `dateAfterNow`/`dateBeforeNow` helpers reproduce.
-/

namespace MaintenanceMode

/-- Structure `MaintenanceConfig` from src/types.ts: optional fields are `Option`,
a missing (`undefined`) field is `none`. -/
structure MaintenanceConfig where
  enabled : Bool
  startTime : Option String := none
  endTime : Option String := none
  message : Option String := none

/-- Structure `MaintenanceStatus` from src/types.ts as produced by
`getMaintenanceStatus` (whose `config` field is never null). -/
structure MaintenanceStatus where
  active : Bool
  config : MaintenanceConfig
  reason : Option String

/-- JS truthiness of an optional string field: `undefined` and `""` are falsy. -/
def truthyStr : Option String → Bool
  | none => false
  | some s => s != ""

/-- Test `new Date(s) > now`: true iff `s` parses to a valid timestamp strictly
after `now` (comparisons against an invalid date are false in JS). -/
def dateAfterNow (parse : String → Option Int) (s : String) (now : Int) : Bool :=
  match parse s with
  | some t => decide (now < t)
  | none => false

/-- Test `new Date(s) < now`: true iff `s` parses to a valid timestamp strictly
before `now` (comparisons against an invalid date are false in JS). -/
def dateBeforeNow (parse : String → Option Int) (s : String) (now : Int) : Bool :=
  match parse s with
  | some t => decide (t < now)
  | none => false

/-- The end-bound block of `isInMaintenanceWindow` from src/config.ts,
reached when the start bound did not already return false; `ws` carries the
warnings emitted so far. An invalid end bound warns and imposes no
constraint; a valid end bound strictly before `now` returns false. -/
def endTimeCheckW (parse : String → Option Int) (now : Int)
    (endTime : Option String) (ws : List String) : Bool × List String :=
  match endTime with
  | none => (true, ws)
  | some e =>
    if e == "" then (true, ws)
    else
      match parse e with
      | none => (true, ws ++ [s!"Invalid endTime format: {e}. Ignoring time check."])
      | some endMs => if now > endMs then (false, ws) else (true, ws)

/-- Embedding of `isInMaintenanceWindow` from src/config.ts, with the
`console.warn` messages it emits returned as the second component.
The control flow mirrors the source: the start bound is checked first and a
valid future start returns false immediately (the end bound is then never
examined); an invalid bound emits a warning and imposes no constraint. -/
def isInMaintenanceWindowW (parse : String → Option Int) (now : Int)
    (config : MaintenanceConfig) : Bool × List String :=
  match config.startTime with
  | none => endTimeCheckW parse now config.endTime []
  | some s =>
    if s == "" then endTimeCheckW parse now config.endTime []
    else
      match parse s with
      | none =>
        endTimeCheckW parse now config.endTime
          [s!"Invalid startTime format: {s}. Ignoring time check."]
      | some startMs =>
        if now < startMs then (false, [])
        else endTimeCheckW parse now config.endTime []

/-- Embedding of `isInMaintenanceWindow` from src/config.ts (boolean result). -/
def isInMaintenanceWindow (parse : String → Option Int) (now : Int)
    (config : MaintenanceConfig) : Bool :=
  (isInMaintenanceWindowW parse now config).1

/-- Embedding of `isMaintenanceActive` from src/config.ts: false when disabled, else the
window check. -/
def isMaintenanceActive (parse : String → Option Int) (now : Int)
    (config : MaintenanceConfig) : Bool :=
  if !config.enabled then false
  else isInMaintenanceWindow parse now config

/-- Variant of `isMaintenanceActive` with its warning output: when disabled it returns
false before the window check runs, so no warnings are emitted. -/
def isMaintenanceActiveW (parse : String → Option Int) (now : Int)
    (config : MaintenanceConfig) : Bool × List String :=
  if !config.enabled then (false, [])
  else isInMaintenanceWindowW parse now config

/-- The reason string of the not-started branch of `getMaintenanceStatus`. -/
def notStartedReason (s : String) : String :=
  s!"Maintenance hasn\x27t started yet (starts at {s})"

/-- The reason string of the ended branch of `getMaintenanceStatus`. -/
def endedReason (e : String) : String :=
  s!"Maintenance has ended (ended at {e})"

/-- The reason string of the active branch when an end time is set. -/
def activeUntilReason (e : String) : String :=
  s!"Maintenance active until {e}"

/-- Embedding of `getMaintenanceStatus` from src/config.ts, with the config
acquisition factored out: it takes the already-read `MaintenanceConfig`.
The source falls through to the active result whenever neither re-derivation
branch matches, which this embedding preserves. -/
def getMaintenanceStatus (parse : String → Option Int) (now : Int)
    (config : MaintenanceConfig) : MaintenanceStatus :=
  if !config.enabled then
    ⟨false, config, some "Maintenance is disabled (enabled: false)"⟩
  else
    let activeStatus : MaintenanceStatus :=
      match config.endTime with
      | some e =>
        if e != "" then ⟨true, config, some (activeUntilReason e)⟩
        else ⟨true, config, some "Maintenance active (no end time specified)"⟩
      | none => ⟨true, config, some "Maintenance active (no end time specified)"⟩
    let endedOrActive : MaintenanceStatus :=
      match config.endTime with
      | some e =>
        if e != "" && dateBeforeNow parse e now then
          ⟨false, config, some (endedReason e)⟩
        else activeStatus
      | none => activeStatus
    if !(isInMaintenanceWindow parse now config) then
      match config.startTime with
      | some s =>
        if s != "" && dateAfterNow parse s now then
          ⟨false, config, some (notStartedReason s)⟩
        else endedOrActive
      | none => endedOrActive
    else activeStatus

/-- A decoded JSON/JS value, the input of `validateMaintenanceConfig`
(`data: unknown` in src/config.ts). `undefined` stands for JS `undefined`. -/
inductive JsValue where
  | undefined
  | null
  | bool (b : Bool)
  | num (n : Int)
  | str (s : String)
  | arr (elems : List JsValue)
  | obj (fields : List (String × JsValue))

/-- JS truthiness of a value (`!data`). -/
def jsTruthy : JsValue → Bool
  | .undefined => false
  | .null => false
  | .bool b => b
  | .num n => n != 0
  | .str s => s != ""
  | .arr _ => true
  | .obj _ => true

/-- JS `typeof`. -/
def jsTypeof : JsValue → String
  | .undefined => "undefined"
  | .null => "object"
  | .bool _ => "boolean"
  | .num _ => "number"
  | .str _ => "string"
  | .arr _ => "object"
  | .obj _ => "object"

/-- Association lookup with JS object semantics: of duplicate keys the last
binding wins. -/
def lookupField : List (String × JsValue) → String → Option JsValue
  | [], _ => none
  | (k, v) :: rest, key =>
    match lookupField rest key with
    | some w => some w
    | none => if k == key then some v else none

/-- JS property access `v[key]`: `undefined` when the key is absent or the
value is not an object. -/
def getProp (v : JsValue) (key : String) : JsValue :=
  match v with
  | .obj fields => (lookupField fields key).getD .undefined
  | _ => .undefined

/-- Whether `v` is JS `undefined` (the source tests `v !== undefined`). -/
def isUndefined : JsValue → Bool
  | .undefined => true
  | _ => false

/-- Embedding of `validateMaintenanceConfig` from src/config.ts: structural
shape check only (no timestamp well-formedness). -/
def validateMaintenanceConfig (data : JsValue) : Bool :=
  if !jsTruthy data || jsTypeof data != "object" then false
  else if jsTypeof (getProp data "enabled") != "boolean" then false
  else if !isUndefined (getProp data "startTime")
      && jsTypeof (getProp data "startTime") != "string" then false
  else if !isUndefined (getProp data "endTime")
      && jsTypeof (getProp data "endTime") != "string" then false
  else if !isUndefined (getProp data "message")
      && jsTypeof (getProp data "message") != "string" then false
  else true

/-- Outcome of the underlying store read inside `readMaintenanceConfig`:
`readFileSync` throwing (ENOENT or another error), `JSON.parse` throwing, or
a successfully parsed value. -/
inductive StoreRead where
  | ioError (enoent : Bool)
  | jsonError (msg : String)
  | parsed (v : JsValue)

/-- The safe default `{ enabled: false }`. -/
def defaultConfig : MaintenanceConfig := { enabled := false }

/-- Reading a validated JS object as a typed `MaintenanceConfig` (in the
source the validated object is used directly; this is the typed view of its
four declared fields). -/
def toConfig (v : JsValue) : MaintenanceConfig :=
  { enabled := (match getProp v "enabled" with | .bool b => b | _ => false)
    startTime := (match getProp v "startTime" with | .str s => some s | _ => none)
    endTime := (match getProp v "endTime" with | .str s => some s | _ => none)
    message := (match getProp v "message" with | .str s => some s | _ => none) }

/-- Embedding of `readMaintenanceConfig` from src/config.ts over the
possible store-read outcomes: every failure and every validation rejection
yields the safe default; a validated value is returned as read. -/
def readMaintenanceConfig : StoreRead → MaintenanceConfig
  | .ioError _ => defaultConfig
  | .jsonError _ => defaultConfig
  | .parsed v =>
    if validateMaintenanceConfig v then toConfig v else defaultConfig

/-- A typed config rendered back as the JSON object it came from (used to
state that values returned by `readMaintenanceConfig` satisfy the validator). -/
def optStrField (name : String) : Option String → List (String × JsValue)
  | none => []
  | some s => [(name, JsValue.str s)]

/-- The JSON object corresponding to a typed `MaintenanceConfig`. -/
def configToJs (c : MaintenanceConfig) : JsValue :=
  .obj ([("enabled", JsValue.bool c.enabled)]
    ++ optStrField "startTime" c.startTime
    ++ optStrField "endTime" c.endTime
    ++ optStrField "message" c.message)

/-- Structure `TimeRemaining`, the breakdown produced by `calculateTimeRemaining`
in src/client.ts. -/
structure TimeRemaining where
  days : Nat
  hours : Nat
  minutes : Nat
  seconds : Nat
  totalSeconds : Nat

/-- Embedding of `calculateTimeRemaining` from src/client.ts, with the
warning it emits on an invalid date returned as the second component.
`Math.max(0, Math.floor(ms / 1000))` is `(ms.fdiv 1000).toNat` (floor
division then clamping at zero). -/
def calculateTimeRemainingW (parse : String → Option Int) (now : Int)
    (endTime : Option String) : Option TimeRemaining × List String :=
  match endTime with
  | none => (none, [])
  | some e =>
    if e == "" then (none, [])
    else
      match parse e with
      | none => (none, [s!"Invalid endTime format: {e}"])
      | some endMs =>
        let totalSeconds : Nat := ((endMs - now).fdiv 1000).toNat
        if totalSeconds == 0 then
          (some ⟨0, 0, 0, 0, 0⟩, [])
        else
          (some ⟨totalSeconds / (24 * 60 * 60),
                 (totalSeconds % (24 * 60 * 60)) / (60 * 60),
                 (totalSeconds % (60 * 60)) / 60,
                 totalSeconds % 60,
                 totalSeconds⟩, [])

/-- Embedding of `calculateTimeRemaining` (result component only). -/
def calculateTimeRemaining (parse : String → Option Int) (now : Int)
    (endTime : Option String) : Option TimeRemaining :=
  (calculateTimeRemainingW parse now endTime).1

/-- Embedding of `formatCountdown` from src/client.ts. -/
def formatCountdown : Option TimeRemaining → String
  | none => ""
  | some ⟨days, hours, minutes, seconds, _⟩ =>
    if days > 0 then s!"{days}d {hours}h {minutes}m"
    else if hours > 0 then s!"{hours}h {minutes}m"
    else if minutes > 0 then s!"{minutes}m {seconds}s"
    else s!"{seconds}s"

/-- The start-bound blocking condition of the window check: the bound is
truthy, parses, and lies strictly after `now` (proof-side normal form). -/
def startBlocks (parse : String → Option Int) (now : Int) : Option String → Bool
  | none => false
  | some s => s != "" && dateAfterNow parse s now

/-- The end-bound blocking condition of the window check: the bound is
truthy, parses, and lies strictly before `now` (proof-side normal form). -/
def endBlocks (parse : String → Option Int) (now : Int) : Option String → Bool
  | none => false
  | some e => e != "" && dateBeforeNow parse e now

/-- The boolean outcome of the end-bound block is exactly "the end bound does
not block", independently of the warnings carried in. -/
theorem endTimeCheckW_fst (parse : String → Option Int) (now : Int)
    (et : Option String) (ws : List String) :
    (endTimeCheckW parse now et ws).1 = !endBlocks parse now et := by
  cases et with
  | none => rfl
  | some e =>
    by_cases he : e = ""
    · simp [endTimeCheckW, endBlocks, he]
    · cases hpe : parse e with
      | none => simp [endTimeCheckW, endBlocks, dateBeforeNow, he, hpe]
      | some endMs =>
        by_cases hlt : now > endMs <;>
          simp [endTimeCheckW, endBlocks, dateBeforeNow, he, hpe, hlt, le_of_not_lt]

/-- Boolean normal form of the window check: the window is open iff neither
bound blocks. -/
theorem isInMaintenanceWindow_eq (parse : String → Option Int) (now : Int)
    (cfg : MaintenanceConfig) :
    isInMaintenanceWindow parse now cfg =
      (!startBlocks parse now cfg.startTime && !endBlocks parse now cfg.endTime) := by
  unfold isInMaintenanceWindow isInMaintenanceWindowW
  cases hst : cfg.startTime with
  | none => simp [endTimeCheckW_fst, startBlocks]
  | some s =>
    by_cases hs : s = ""
    · simp [hs, endTimeCheckW_fst, startBlocks]
    · cases hps : parse s with
      | none => simp [hs, hps, endTimeCheckW_fst, startBlocks, dateAfterNow]
      | some startMs =>
        by_cases hlt : now < startMs <;>
          simp [hs, hps, hlt, endTimeCheckW_fst, startBlocks, dateAfterNow]

/-- The start bound blocks exactly when it is truthy, parses, and lies
strictly after `now`. -/
theorem startBlocks_iff (parse : String → Option Int) (now : Int)
    (st : Option String) :
    startBlocks parse now st = true ↔
      ∃ s t, st = some s ∧ s ≠ "" ∧ parse s = some t ∧ now < t := by
  cases st with
  | none => simp [startBlocks]
  | some s =>
    cases hps : parse s with
    | none => simp [startBlocks, dateAfterNow, hps]
    | some t => simp [startBlocks, dateAfterNow, hps, and_comm]

/-- The end bound blocks exactly when it is truthy, parses, and lies
strictly before `now`. -/
theorem endBlocks_iff (parse : String → Option Int) (now : Int)
    (et : Option String) :
    endBlocks parse now et = true ↔
      ∃ e u, et = some e ∧ e ≠ "" ∧ parse e = some u ∧ u < now := by
  cases et with
  | none => simp [endBlocks]
  | some e =>
    cases hpe : parse e with
    | none => simp [endBlocks, dateBeforeNow, hpe]
    | some u => simp [endBlocks, dateBeforeNow, hpe, and_comm]

/-- A start bound none of whose truthy parses lie after `now` does not block. -/
theorem startBlocks_eq_false (parse : String → Option Int) (now : Int)
    (st : Option String)
    (h : ∀ s t, st = some s → s ≠ "" → parse s = some t → ¬ now < t) :
    startBlocks parse now st = false := by
  cases hb : startBlocks parse now st
  · rfl
  · obtain ⟨s, t, hst, hs, hps, hlt⟩ := (startBlocks_iff parse now st).1 hb
    exact absurd hlt (h s t hst hs hps)

/-- An end bound none of whose truthy parses lie before `now` does not block. -/
theorem endBlocks_eq_false (parse : String → Option Int) (now : Int)
    (et : Option String)
    (h : ∀ e u, et = some e → e ≠ "" → parse e = some u → ¬ u < now) :
    endBlocks parse now et = false := by
  cases hb : endBlocks parse now et
  · rfl
  · obtain ⟨e, u, het, he, hpe, hlt⟩ := (endBlocks_iff parse now et).1 hb
    exact absurd hlt (h e u het he hpe)

/-- C1: for every configuration with `enabled = false`, `isMaintenanceActive`
returns false regardless of the `startTime`/`endTime` values (including
malformed timestamp strings, i.e. for every parse behaviour), and it does so
without evaluating the time window: no window warnings are emitted. -/
theorem c1_disabled_inactive (parse : String → Option Int) (now : Int)
    (st et msg : Option String) :
    isMaintenanceActive parse now ⟨false, st, et, msg⟩ = false ∧
    isMaintenanceActiveW parse now ⟨false, st, et, msg⟩ = (false, []) :=
  ⟨rfl, rfl⟩

/-- C2: with `enabled = true`: no bounds gives true; a valid future start
gives false; a valid past end gives false; and when no truthy bound parses to
a blocking instant the result is true. -/
theorem c2_enabled_window (parse : String → Option Int) (now : Int)
    (cfg : MaintenanceConfig) (he : cfg.enabled = true) :
    (cfg.startTime = none → cfg.endTime = none →
      isMaintenanceActive parse now cfg = true) ∧
    (∀ s t, cfg.startTime = some s → s ≠ "" → parse s = some t → now < t →
      isMaintenanceActive parse now cfg = false) ∧
    (∀ e u, cfg.endTime = some e → e ≠ "" → parse e = some u → u < now →
      isMaintenanceActive parse now cfg = false) ∧
    ((∀ s t, cfg.startTime = some s → s ≠ "" → parse s = some t → ¬ now < t) →
      (∀ e u, cfg.endTime = some e → e ≠ "" → parse e = some u → ¬ u < now) →
      isMaintenanceActive parse now cfg = true) := by
  have hact : isMaintenanceActive parse now cfg
      = (!startBlocks parse now cfg.startTime && !endBlocks parse now cfg.endTime) := by
    rw [← isInMaintenanceWindow_eq]
    simp [isMaintenanceActive, he]
  refine ⟨?_, ?_, ?_, ?_⟩
  · intro hst het
    simp [hact, hst, het, startBlocks, endBlocks]
  · intro s t hst hs hps hlt
    have : startBlocks parse now cfg.startTime = true :=
      (startBlocks_iff parse now cfg.startTime).2 ⟨s, t, hst, hs, hps, hlt⟩
    simp [hact, this]
  · intro e u het hne hpe hlt
    have : endBlocks parse now cfg.endTime = true :=
      (endBlocks_iff parse now cfg.endTime).2 ⟨e, u, het, hne, hpe, hlt⟩
    simp [hact, this]
  · intro h1 h2
    simp [hact, startBlocks_eq_false parse now cfg.startTime h1,
      endBlocks_eq_false parse now cfg.endTime h2]

/-- C2 witness: an enabled configuration with no bounds is active. -/
theorem c2_enabled_window_witness :
    isMaintenanceActive (fun _ => none) 0 ⟨true, none, none, none⟩ = true :=
  (c2_enabled_window (fun _ => none) 0 ⟨true, none, none, none⟩ rfl).1 rfl rfl

/-- C9: the window is inclusive at both endpoints, because the source
comparisons are strict: an enabled configuration evaluated exactly at a valid
start bound (with no end bound blocking), or exactly at a valid end bound
(with no start bound blocking), is active. -/
theorem c9_bounds_inclusive (parse : String → Option Int) (now : Int)
    (cfg : MaintenanceConfig) (he : cfg.enabled = true) :
    (∀ s, cfg.startTime = some s → s ≠ "" → parse s = some now →
      (∀ e u, cfg.endTime = some e → e ≠ "" → parse e = some u → ¬ u < now) →
      isMaintenanceActive parse now cfg = true) ∧
    (∀ e, cfg.endTime = some e → e ≠ "" → parse e = some now →
      (∀ s t, cfg.startTime = some s → s ≠ "" → parse s = some t → ¬ now < t) →
      isMaintenanceActive parse now cfg = true) := by
  have hact : isMaintenanceActive parse now cfg
      = (!startBlocks parse now cfg.startTime && !endBlocks parse now cfg.endTime) := by
    rw [← isInMaintenanceWindow_eq]
    simp [isMaintenanceActive, he]
  constructor
  · intro s hst hs hps hend
    have h1 : ∀ s' t, cfg.startTime = some s' → s' ≠ "" → parse s' = some t →
        ¬ now < t := by
      intro s' t hst' hs' hps'
      rw [hst'] at hst
      cases Option.some.inj hst
      rw [hps] at hps'
      cases Option.some.inj hps'
      exact lt_irrefl now
    simp [hact, startBlocks_eq_false parse now cfg.startTime h1,
      endBlocks_eq_false parse now cfg.endTime hend]
  · intro e het hne hpe hstart
    have h2 : ∀ e' u, cfg.endTime = some e' → e' ≠ "" → parse e' = some u →
        ¬ u < now := by
      intro e' u het' he' hpe'
      rw [het'] at het
      cases Option.some.inj het
      rw [hpe] at hpe'
      cases Option.some.inj hpe'
      exact lt_irrefl now
    simp [hact, startBlocks_eq_false parse now cfg.startTime hstart,
      endBlocks_eq_false parse now cfg.endTime h2]

/-- C9 witness: at a time equal to the parsed start bound, the window check
does not block and the verdict is active. -/
theorem c9_bounds_inclusive_witness :
    isMaintenanceActive (fun s => if s == "S" then some 5 else none) 5
      ⟨true, some "S", none, none⟩ = true :=
  (c9_bounds_inclusive (fun s => if s == "S" then some 5 else none) 5
      ⟨true, some "S", none, none⟩ rfl).1 "S" rfl (by decide) rfl
    (by intro e u het; simp at het)

/-- Every typed `MaintenanceConfig`, rendered back as a JSON object, is
accepted by the validator. -/
theorem validate_configToJs (c : MaintenanceConfig) :
    validateMaintenanceConfig (configToJs c) = true := by
  rcases c with ⟨en, st, et, msg⟩
  rcases st with _ | s <;> rcases et with _ | e <;> rcases msg with _ | m <;> rfl

/-- C7: a truthy but unparseable bound imposes no constraint: the window
check returns exactly what it returns for the identical configuration with
that bound absent (so it never by itself makes the verdict inactive), and the
record as a whole is not rejected by the validator. -/
theorem c7_invalid_bound_dropped (parse : String → Option Int) (now : Int)
    (cfg : MaintenanceConfig) :
    (∀ s, cfg.startTime = some s → s ≠ "" → parse s = none →
      isInMaintenanceWindow parse now cfg =
        isInMaintenanceWindow parse now { cfg with startTime := none }) ∧
    (∀ e, cfg.endTime = some e → e ≠ "" → parse e = none →
      isInMaintenanceWindow parse now cfg =
        isInMaintenanceWindow parse now { cfg with endTime := none }) ∧
    validateMaintenanceConfig (configToJs cfg) = true := by
  refine ⟨?_, ?_, validate_configToJs cfg⟩
  · intro s hst hs hps
    rw [isInMaintenanceWindow_eq, isInMaintenanceWindow_eq]
    simp [hst, startBlocks, dateAfterNow, hps]
  · intro e het hne hpe
    rw [isInMaintenanceWindow_eq, isInMaintenanceWindow_eq]
    simp [het, endBlocks, dateBeforeNow, hpe]

/-- The end-bound block treats an empty-string bound exactly as an absent
one (falsy in JS), with no warning. -/
theorem endTimeCheckW_empty (parse : String → Option Int) (now : Int)
    (ws : List String) :
    endTimeCheckW parse now (some "") ws = endTimeCheckW parse now none ws := rfl

/-- C10: an empty-string bound is treated exactly like an absent bound, not
like an unparseable one: the window check applies no constraint and emits no
warning for it, `{enabled: true, startTime: "", endTime: ""}` evaluates as
active with no warnings, and `calculateTimeRemaining("")` returns none with
no warning. -/
theorem c10_empty_string_as_absent (parse : String → Option Int) (now : Int)
    (cfg : MaintenanceConfig) :
    (cfg.startTime = some "" →
      isInMaintenanceWindowW parse now cfg =
        isInMaintenanceWindowW parse now { cfg with startTime := none }) ∧
    (cfg.endTime = some "" →
      isInMaintenanceWindowW parse now cfg =
        isInMaintenanceWindowW parse now { cfg with endTime := none }) ∧
    isMaintenanceActiveW parse now ⟨true, some "", some "", none⟩ = (true, []) ∧
    calculateTimeRemainingW parse now (some "") = (none, []) := by
  refine ⟨?_, ?_, rfl, rfl⟩
  · intro hst
    simp [isInMaintenanceWindowW, hst]
  · intro het
    unfold isInMaintenanceWindowW
    simp only [het, endTimeCheckW_empty]

/-- The value is an object. -/
def isObj : JsValue → Bool
  | .obj _ => true
  | _ => false

/-- The value is a boolean. -/
def isBoolV : JsValue → Bool
  | .bool _ => true
  | _ => false

/-- The value is absent (`undefined`) or a string. -/
def strOrAbsent : JsValue → Bool
  | .undefined => true
  | .str _ => true
  | _ => false

/-- The `typeof v !== "boolean"` test is the negation of being a boolean. -/
theorem typeof_boolean (v : JsValue) : (jsTypeof v != "boolean") = !isBoolV v := by
  cases v <;> rfl

/-- The `v !== undefined && typeof v !== "string"` test is the negation of
being absent or a string. -/
theorem absent_or_string (v : JsValue) :
    (!isUndefined v && jsTypeof v != "string") = !strOrAbsent v := by
  cases v <;> rfl

/-- A guarded continuation `if !x then false else y` is the conjunction. -/
theorem guard_and (x y : Bool) : (if !x then false else y) = (x && y) := by
  cases x <;> simp

/-- The validator in shape-predicate form: it accepts exactly the objects
whose `enabled` member is a boolean and whose `startTime`, `endTime` and
`message` members are each absent or strings. -/
theorem validate_eq_shape (data : JsValue) :
    validateMaintenanceConfig data =
      (isObj data && isBoolV (getProp data "enabled")
        && strOrAbsent (getProp data "startTime")
        && strOrAbsent (getProp data "endTime")
        && strOrAbsent (getProp data "message")) := by
  cases data with
  | obj fields =>
    show (if !jsTruthy (.obj fields) || jsTypeof (.obj fields) != "object" then false
      else if jsTypeof (getProp (.obj fields) "enabled") != "boolean" then false
      else if !isUndefined (getProp (.obj fields) "startTime")
          && jsTypeof (getProp (.obj fields) "startTime") != "string" then false
      else if !isUndefined (getProp (.obj fields) "endTime")
          && jsTypeof (getProp (.obj fields) "endTime") != "string" then false
      else if !isUndefined (getProp (.obj fields) "message")
          && jsTypeof (getProp (.obj fields) "message") != "string" then false
      else true) = _
    rw [typeof_boolean, absent_or_string, absent_or_string, absent_or_string,
      guard_and, guard_and, guard_and, guard_and]
    simp [jsTruthy, jsTypeof, isObj, Bool.and_assoc]
  | undefined => rfl
  | null => rfl
  | bool b => cases b <;> rfl
  | num n =>
    simp [validateMaintenanceConfig, jsTruthy, jsTypeof, isObj]
  | str s =>
    simp [validateMaintenanceConfig, jsTruthy, jsTypeof, isObj]
  | arr elems => rfl

/-- Being an object, as a proposition. -/
theorem isObj_iff (v : JsValue) : isObj v = true ↔ ∃ fields, v = JsValue.obj fields := by
  cases v <;> simp [isObj]

/-- Being a boolean, as a proposition. -/
theorem isBoolV_iff (v : JsValue) : isBoolV v = true ↔ ∃ b, v = JsValue.bool b := by
  cases v <;> simp [isBoolV]

/-- Being absent or a string, as a proposition. -/
theorem strOrAbsent_iff (v : JsValue) :
    strOrAbsent v = true ↔ v = JsValue.undefined ∨ ∃ s, v = JsValue.str s := by
  cases v <;> simp [strOrAbsent]

/-- C5: the validator returns false exactly for values that are null, not an
object, missing `enabled`, with a non-boolean `enabled`, or with a present
but non-string `startTime`/`endTime`/`message`; it returns true for every
other value, without inspecting the contents of string bounds; in particular
the spec's examples are decided as stated. -/
theorem c5_validate_spec (data : JsValue) :
    (validateMaintenanceConfig data = true ↔
      (∃ fields, data = JsValue.obj fields) ∧
      (∃ b, getProp data "enabled" = JsValue.bool b) ∧
      (getProp data "startTime" = JsValue.undefined ∨
        ∃ s, getProp data "startTime" = JsValue.str s) ∧
      (getProp data "endTime" = JsValue.undefined ∨
        ∃ s, getProp data "endTime" = JsValue.str s) ∧
      (getProp data "message" = JsValue.undefined ∨
        ∃ s, getProp data "message" = JsValue.str s)) ∧
    (∀ s1 s2, validateMaintenanceConfig
      (JsValue.obj [("enabled", JsValue.bool true),
        ("startTime", JsValue.str s1), ("endTime", JsValue.str s2)]) = true) ∧
    validateMaintenanceConfig JsValue.null = false ∧
    validateMaintenanceConfig (JsValue.obj []) = false ∧
    validateMaintenanceConfig
      (JsValue.obj [("enabled", JsValue.str "true")]) = false ∧
    validateMaintenanceConfig
      (JsValue.obj [("enabled", JsValue.bool true),
        ("startTime", JsValue.num 123)]) = false ∧
    validateMaintenanceConfig (JsValue.obj [("enabled", JsValue.bool true)]) = true ∧
    validateMaintenanceConfig
      (JsValue.obj [("enabled", JsValue.bool false),
        ("startTime", JsValue.str "2025-01-01T00:00:00Z")]) = true := by
  refine ⟨?_, fun s1 s2 => rfl, rfl, rfl, rfl, rfl, rfl, rfl⟩
  rw [validate_eq_shape]
  simp only [Bool.and_eq_true, isObj_iff, isBoolV_iff, strOrAbsent_iff, and_assoc]

/-- C4: `readMaintenanceConfig` never raises: it is a total function of the
store-read outcome; every failure (I/O error, unparseable JSON, validation
rejection) yields the safe default `{enabled: false}`, and every value it
returns satisfies the validator. -/
theorem c4_read_safe :
    (∀ enoent, readMaintenanceConfig (.ioError enoent) = defaultConfig) ∧
    (∀ msg, readMaintenanceConfig (.jsonError msg) = defaultConfig) ∧
    (∀ v, validateMaintenanceConfig v = false →
      readMaintenanceConfig (.parsed v) = defaultConfig) ∧
    (∀ store, validateMaintenanceConfig
      (configToJs (readMaintenanceConfig store)) = true) := by
  refine ⟨fun _ => rfl, fun _ => rfl, ?_, ?_⟩
  · intro v hv
    simp [readMaintenanceConfig, hv]
  · intro store
    exact validate_configToJs (readMaintenanceConfig store)

/-- C6: `calculateTimeRemaining` returns none exactly when `endTime` is
absent or fails to parse (JS parses the empty string as an invalid date,
hypothesis `hEmpty`); otherwise it returns the fixed-radix breakdown of
`totalSeconds = max(0, floor((end - now) / 1000))`, and any end time at or
before `now` yields the all-zero breakdown. -/
theorem c6_countdown (parse : String → Option Int) (now : Int)
    (hEmpty : parse "" = none) :
    (∀ et, calculateTimeRemaining parse now et = none ↔
      (et = none ∨ ∃ e, et = some e ∧ parse e = none)) ∧
    (∀ e endMs, parse e = some endMs → e ≠ "" →
      calculateTimeRemaining parse now (some e) =
        some ⟨((endMs - now).fdiv 1000).toNat / 86400,
              (((endMs - now).fdiv 1000).toNat % 86400) / 3600,
              (((endMs - now).fdiv 1000).toNat % 3600) / 60,
              ((endMs - now).fdiv 1000).toNat % 60,
              ((endMs - now).fdiv 1000).toNat⟩) ∧
    (∀ e endMs, parse e = some endMs → e ≠ "" → endMs ≤ now →
      calculateTimeRemaining parse now (some e) = some ⟨0, 0, 0, 0, 0⟩) := by
  have hbody : ∀ e endMs, parse e = some endMs → e ≠ "" →
      calculateTimeRemaining parse now (some e) =
        some ⟨((endMs - now).fdiv 1000).toNat / 86400,
              (((endMs - now).fdiv 1000).toNat % 86400) / 3600,
              (((endMs - now).fdiv 1000).toNat % 3600) / 60,
              ((endMs - now).fdiv 1000).toNat % 60,
              ((endMs - now).fdiv 1000).toNat⟩ := by
    intro e endMs hpe hne
    unfold calculateTimeRemaining calculateTimeRemainingW
    simp only [hne, hpe, beq_iff_eq, if_false, if_neg hne]
    by_cases hz : ((endMs - now).fdiv 1000).toNat = 0
    · simp [hz]
    · simp [hz]
  refine ⟨?_, hbody, ?_⟩
  · intro et
    cases et with
    | none => simp [calculateTimeRemaining, calculateTimeRemainingW]
    | some e =>
      by_cases hne : e = ""
      · subst hne
        simp [calculateTimeRemaining, calculateTimeRemainingW, hEmpty]
      · cases hpe : parse e with
        | none =>
          simp [calculateTimeRemaining, calculateTimeRemainingW, hne, hpe]
        | some endMs =>
          rw [hbody e endMs hpe hne]
          simp [hne, hpe]
  · intro e endMs hpe hne hle
    rw [hbody e endMs hpe hne]
    have hts : ((endMs - now).fdiv 1000).toNat = 0 := by
      apply Int.toNat_of_nonpos
      rw [Int.fdiv_eq_ediv _ (by norm_num)]
      calc (endMs - now) / 1000 ≤ 0 / 1000 :=
            Int.ediv_le_ediv (by norm_num) (by omega)
        _ = 0 := Int.zero_ediv 1000
    simp [hts]

/-- C6 witness: an end time 3661 seconds in the future yields the breakdown
of one hour, one minute and one second. -/
theorem c6_countdown_witness :
    calculateTimeRemaining (fun s => if s == "E" then some 3661000 else none) 0
      (some "E") = some ⟨0, 1, 1, 1, 3661⟩ := by
  have h := (c6_countdown (fun s => if s == "E" then some 3661000 else none) 0
      rfl).2.1 "E" 3661000 rfl (by decide)
  simpa using h

/-- C8: `formatCountdown` renders "" for an absent breakdown, drops seconds
when days are positive, drops days at the hour and minute granularities, and
renders bare seconds otherwise; the spec's two examples format as stated. -/
theorem c8_format_countdown (d h m s ts : Nat) :
    formatCountdown none = "" ∧
    (0 < d → formatCountdown (some ⟨d, h, m, s, ts⟩) = s!"{d}d {h}h {m}m") ∧
    (d = 0 → 0 < h → formatCountdown (some ⟨d, h, m, s, ts⟩) = s!"{h}h {m}m") ∧
    (d = 0 → h = 0 → 0 < m →
      formatCountdown (some ⟨d, h, m, s, ts⟩) = s!"{m}m {s}s") ∧
    (d = 0 → h = 0 → m = 0 →
      formatCountdown (some ⟨d, h, m, s, ts⟩) = s!"{s}s") ∧
    formatCountdown (some ⟨2, 3, 0, 0, 0⟩) = "2d 3h 0m" ∧
    formatCountdown (some ⟨0, 0, 0, 45, 45⟩) = "45s" := by
  refine ⟨rfl, ?_, ?_, ?_, ?_, rfl, rfl⟩
  · intro hd
    simp [formatCountdown, hd]
  · intro hd hh
    subst hd
    simp [formatCountdown, hh]
  · intro hd hh hm
    subst hd; subst hh
    simp [formatCountdown, hm]
  · intro hd hh hm
    subst hd; subst hh; subst hm
    simp [formatCountdown]

/-- When enabled and the start bound blocks, the status is inactive with the
not-started reason. -/
theorem status_notStarted (parse : String → Option Int) (now : Int)
    (cfg : MaintenanceConfig) (hen : cfg.enabled = true) (s : String) (t : Int)
    (hst : cfg.startTime = some s) (hs : s ≠ "") (hps : parse s = some t)
    (hlt : now < t) :
    getMaintenanceStatus parse now cfg = ⟨false, cfg, some (notStartedReason s)⟩ := by
  have hsb : startBlocks parse now cfg.startTime = true :=
    (startBlocks_iff parse now cfg.startTime).2 ⟨s, t, hst, hs, hps, hlt⟩
  have hw : isInMaintenanceWindow parse now cfg = false := by
    rw [isInMaintenanceWindow_eq, hsb]
    rfl
  simp [getMaintenanceStatus, hen, hw, hst, hs, dateAfterNow, hps, hlt]

/-- When enabled, the start bound does not block, and the end bound blocks,
the status is inactive with the ended reason. -/
theorem status_ended (parse : String → Option Int) (now : Int)
    (cfg : MaintenanceConfig) (hen : cfg.enabled = true)
    (hsb : startBlocks parse now cfg.startTime = false) (e : String) (u : Int)
    (het : cfg.endTime = some e) (he : e ≠ "") (hpe : parse e = some u)
    (hlt : u < now) :
    getMaintenanceStatus parse now cfg = ⟨false, cfg, some (endedReason e)⟩ := by
  have heb : endBlocks parse now cfg.endTime = true :=
    (endBlocks_iff parse now cfg.endTime).2 ⟨e, u, het, he, hpe, hlt⟩
  have hw : isInMaintenanceWindow parse now cfg = false := by
    rw [isInMaintenanceWindow_eq, heb]
    simp
  cases hst : cfg.startTime with
  | none => simp [getMaintenanceStatus, hen, hw, hst, het, he, dateBeforeNow, hpe, hlt]
  | some s =>
    rw [hst] at hsb
    simp only [startBlocks] at hsb
    simp [getMaintenanceStatus, hen, hw, hst, hsb, het, he, dateBeforeNow, hpe, hlt]

/-- When enabled and the window check passes, the status is the active record
whose reason depends on the truthiness of the end bound. -/
theorem status_active (parse : String → Option Int) (now : Int)
    (cfg : MaintenanceConfig) (hen : cfg.enabled = true)
    (hw : isInMaintenanceWindow parse now cfg = true) :
    getMaintenanceStatus parse now cfg =
      (match cfg.endTime with
       | some e =>
         if e != "" then ⟨true, cfg, some (activeUntilReason e)⟩
         else ⟨true, cfg, some "Maintenance active (no end time specified)"⟩
       | none => ⟨true, cfg, some "Maintenance active (no end time specified)"⟩) := by
  simp [getMaintenanceStatus, hen, hw]

/-- C3: `getMaintenanceStatus` agrees with `isMaintenanceActive` on the
active flag, echoes the configuration, always carries a reason, and the
reason matches the decision branch taken: disabled, not-started (naming
startTime), ended (naming endTime), or active (naming endTime when truthy,
else the no-end-time message). -/
theorem c3_status_consistent (parse : String → Option Int) (now : Int)
    (cfg : MaintenanceConfig) :
    (getMaintenanceStatus parse now cfg).active = isMaintenanceActive parse now cfg ∧
    (getMaintenanceStatus parse now cfg).config = cfg ∧
    ((getMaintenanceStatus parse now cfg).reason).isSome = true ∧
    (cfg.enabled = false →
      (getMaintenanceStatus parse now cfg).reason =
        some "Maintenance is disabled (enabled: false)") ∧
    (∀ s t, cfg.enabled = true → cfg.startTime = some s → s ≠ "" →
      parse s = some t → now < t →
      (getMaintenanceStatus parse now cfg).reason = some (notStartedReason s)) ∧
    (∀ e u, cfg.enabled = true → startBlocks parse now cfg.startTime = false →
      cfg.endTime = some e → e ≠ "" → parse e = some u → u < now →
      (getMaintenanceStatus parse now cfg).reason = some (endedReason e)) ∧
    (∀ e, cfg.enabled = true → isMaintenanceActive parse now cfg = true →
      cfg.endTime = some e → e ≠ "" →
      (getMaintenanceStatus parse now cfg).reason = some (activeUntilReason e)) ∧
    (cfg.enabled = true → isMaintenanceActive parse now cfg = true →
      truthyStr cfg.endTime = false →
      (getMaintenanceStatus parse now cfg).reason =
        some "Maintenance active (no end time specified)") := by
  refine ⟨?_, ?_, ?_, ?_, ?_, ?_, ?_, ?_⟩
  · cases hen : cfg.enabled with
    | false => simp [getMaintenanceStatus, isMaintenanceActive, hen]
    | true =>
      cases hw : isInMaintenanceWindow parse now cfg with
      | true =>
        rw [status_active parse now cfg hen hw]
        cases het : cfg.endTime with
        | none => simp [isMaintenanceActive, hen, hw]
        | some e =>
          by_cases he : e = "" <;> simp [isMaintenanceActive, hen, hw, he]
      | false =>
        by_cases hsb : startBlocks parse now cfg.startTime = true
        · obtain ⟨s, t, hst, hs, hps, hlt⟩ :=
            (startBlocks_iff parse now cfg.startTime).1 hsb
          rw [status_notStarted parse now cfg hen s t hst hs hps hlt]
          simp [isMaintenanceActive, hen, hw]
        · have hsb' : startBlocks parse now cfg.startTime = false := by
            simpa using hsb
          have heb : endBlocks parse now cfg.endTime = true := by
            rw [isInMaintenanceWindow_eq] at hw
            simpa [hsb'] using hw
          obtain ⟨e, u, het, he, hpe, hlt⟩ :=
            (endBlocks_iff parse now cfg.endTime).1 heb
          rw [status_ended parse now cfg hen hsb' e u het he hpe hlt]
          simp [isMaintenanceActive, hen, hw]
  · unfold getMaintenanceStatus
    repeat' split
    all_goals rfl
  · unfold getMaintenanceStatus
    repeat' split
    all_goals rfl
  · intro hen
    simp [getMaintenanceStatus, hen]
  · intro s t hen hst hs hps hlt
    rw [status_notStarted parse now cfg hen s t hst hs hps hlt]
  · intro e u hen hsb het he hpe hlt
    rw [status_ended parse now cfg hen hsb e u het he hpe hlt]
  · intro e hen hact het he
    have hw : isInMaintenanceWindow parse now cfg = true := by
      simpa [isMaintenanceActive, hen] using hact
    rw [status_active parse now cfg hen hw]
    simp [het, he]
  · intro hen hact hte
    have hw : isInMaintenanceWindow parse now cfg = true := by
      simpa [isMaintenanceActive, hen] using hact
    rw [status_active parse now cfg hen hw]
    cases het : cfg.endTime with
    | none => simp
    | some e =>
      rw [het] at hte
      simp only [truthyStr] at hte
      simp [hte]

end MaintenanceMode
